import Mathlib

/-!
Shallow embedding of the batch RNA-structure-prediction script (src/f.py).

The script has three functions:
  * `load_data`: reads a CSV, drops rows whose sequence column is missing.
  * `predict_structure_with_ipknot`: writes a one-record FASTA temp file,
    runs the external `ipknot` tool on it, returns the third line of the
    tool's stdout, maps a non-zero exit to `None`, and unlinks the temp
    file in a `finally` block.
  * `process_data`: loads (or creates) the output CSV as an accumulator,
    deduplicates the input rows by the sequence column, and for each row
    calls the predictor; on a truthy result it appends the augmented row
    to the accumulator and rewrites the whole output file.

Rows are modelled as association lists from column name to an optional
string (`none` models a pandas NaN / missing value).  The external tool
is modelled as an oracle from the temp file's FASTA text to an exit code
and captured stdout.  Filesystem effects of the adapter are modelled as
an event trace; checkpoint writes of the processor as the list of file
contents written.
-/

namespace BioSaw

/-- A cell value: `none` models a missing value / NaN. -/
abbrev Val := Option String

/-- A table row: association list from column name to cell value. -/
abbrev Row := List (String × Val)

/-- A data frame: column names plus rows. -/
structure Table where
  cols : List String
  rows : List Row
deriving DecidableEq, Repr

/-- `row[c]` in pandas: the cell value at column `c` (missing ↦ `none`). -/
def getCell (r : Row) (c : String) : Val :=
  (r.lookup c).getD none

/-- `row[c] = v` in pandas: overwrite the cell if the label exists,
otherwise append the new column at the end. -/
def setCell (r : Row) (c : String) (v : Val) : Row :=
  if r.any (fun p => p.1 == c) then
    r.map (fun p => if p.1 == c then (p.1, v) else p)
  else r ++ [(c, v)]

/-- Python truthiness of the adapter's return value (`if structure:`):
`None` and the empty string are falsy, a non-empty string is truthy. -/
def truthy : Option String → Bool
  | none => false
  | some s => !s.isEmpty

/-! ### The Data Loader (`load_data`, src/f.py lines 15-25) -/

/-- `load_data(file_path, sequence_column)`.  The CSV contents are passed
as `Option Table`: `none` models an unreadable/unparsable file, in which
case the exception is re-raised (`Except.error`).  Otherwise rows whose
sequence column is missing are dropped (`df.dropna(subset=[col])`) and the
logged dropped-row count is `initial_count - len(df)`. -/
def load_data (contents : Option Table) (sequence_column : String) :
    Except String (Table × Nat) :=
  match contents with
  | none => Except.error "read failure"
  | some df =>
      let kept : Table :=
        { df with rows := df.rows.filter (fun r => (getCell r sequence_column).isSome) }
      Except.ok (kept, df.rows.length - kept.rows.length)

/-! ### The Structure Predictor Adapter
(`predict_structure_with_ipknot`, src/f.py lines 27-40) -/

/-- Exit code and captured stdout of one run of the external tool. -/
structure ToolOutput where
  exitCode : Int
  stdout : String
deriving DecidableEq, Repr

/-- Filesystem events on the adapter's temporary file. -/
inductive FsEvent
  | createTemp
  | unlinkTemp
deriving DecidableEq, Repr

/-- What the adapter call does: return a value (a structure string or
`None`), or let an uncaught exception (IndexError) propagate. -/
inductive AdapterOutcome
  | ret (v : Option String)
  | exn
deriving DecidableEq, Repr

/-- Observable effects of one adapter call: the temp-file event trace,
the outcome, and the ids named in warning log lines. -/
structure AdapterRun where
  events : List FsEvent
  outcome : AdapterOutcome
  warnedIds : List String
deriving DecidableEq, Repr

/-- The FASTA text written to the temp file:
`f">{sequence_id}\n{sequence}\n"`. -/
def fastaText (sequence_id sequence : String) : String :=
  ">" ++ sequence_id ++ "\n" ++ sequence ++ "\n"

/-- Python's `s.split('\n')` on the character list: split at every
newline, never collapsing, so the result always has one more field than
there are newline characters. -/
def splitNlChars : List Char → List (List Char)
  | [] => [[]]
  | c :: cs =>
      match splitNlChars cs with
      | [] => [[c]]
      | l :: ls => if c = '\n' then [] :: l :: ls else (c :: l) :: ls

/-- Python's `s.split('\n')` on strings. -/
def pySplit (s : String) : List String :=
  (splitNlChars s.data).map String.mk

/-- `predict_structure_with_ipknot(sequence, sequence_id)`.  The external
tool is an oracle `tool` from the temp file's contents to its exit code
and stdout.  Control flow of the source: create and fill the temp file;
run the tool with `check=True`; on exit 0 return `stdout.split('\n')[2]`
(an IndexError propagates when that index is absent); a non-zero exit
raises CalledProcessError, which is caught, logged as a warning naming
`sequence_id`, and turned into `None`; the `finally` block unlinks the
temp file on every path. -/
def predict_structure_with_ipknot (tool : String → ToolOutput)
    (sequence sequence_id : String) : AdapterRun :=
  let created : List FsEvent := [FsEvent.createTemp]
  let result := tool (fastaText sequence_id sequence)
  if result.exitCode = 0 then
    match (pySplit result.stdout).get? 2 with
    | some line =>
        { events := created ++ [FsEvent.unlinkTemp]
          outcome := AdapterOutcome.ret (some line)
          warnedIds := [] }
    | none =>
        { events := created ++ [FsEvent.unlinkTemp]
          outcome := AdapterOutcome.exn
          warnedIds := [] }
  else
    { events := created ++ [FsEvent.unlinkTemp]
      outcome := AdapterOutcome.ret none
      warnedIds := [sequence_id] }

/-- Whether the temp file exists after replaying an event trace. -/
def tempFileExists (evs : List FsEvent) : Bool :=
  evs.foldl (fun _ e => match e with
    | FsEvent.createTemp => true
    | FsEvent.unlinkTemp => false) false

/-! ### The Batch Processor (`process_data`, src/f.py lines 42-66) -/

/-- `df.drop_duplicates(subset=[c])` keeps, per value of column `c`, the
first row carrying that value; `seen` is the set of values already kept. -/
def dropDupAux (c : String) : List Val → List Row → List Row
  | _, [] => []
  | seen, r :: rs =>
      if getCell r c ∈ seen then dropDupAux c seen rs
      else r :: dropDupAux c (getCell r c :: seen) rs

/-- `df.drop_duplicates(subset=[c])`. -/
def drop_duplicates (df : Table) (c : String) : Table :=
  { df with rows := dropDupAux c [] df.rows }

/-- Log events of the processing loop, each naming the row's id cell. -/
inductive ProcEvent
  | skipNull (id : Val)
  | saved (id : Val)
  | failedPred (id : Val)
deriving DecidableEq, Repr

/-- Mutable state of the processing loop: the accumulator table
(`processed_df`), the successive contents written to `output_path`, the
(sequence, id) arguments of the predictor calls made so far, and the log
events emitted so far. -/
structure LoopState where
  acc : Table
  writes : List (List Row)
  calls : List (String × Val)
  events : List ProcEvent
deriving DecidableEq, Repr

/-- One iteration of the `for index, row in df.iterrows()` loop.
`predict` abstracts the value returned by
`predict_structure_with_ipknot` (a structure string or `None`).
A null sequence cell is skipped with a warning; otherwise the predictor
is called, and on a truthy result the row is extended with the
`{sequence_column}_structure` cell, appended to the accumulator, and the
full accumulator is written out (`to_csv`); a falsy result only logs a
warning. -/
def stepRow (predict : String → Val → Option String)
    (sequence_column id_column : String) (st : LoopState) (row : Row) :
    LoopState :=
  match getCell row sequence_column with
  | none =>
      { st with events := st.events ++ [ProcEvent.skipNull (getCell row id_column)] }
  | some s =>
      let sres := predict s (getCell row id_column)
      let st1 := { st with calls := st.calls ++ [(s, getCell row id_column)] }
      if truthy sres then
        let row2 := setCell row (sequence_column ++ "_structure") sres
        let acc2 : Table := { st1.acc with rows := st1.acc.rows ++ [row2] }
        { st1 with
            acc := acc2
            writes := st1.writes ++ [acc2.rows]
            events := st1.events ++ [ProcEvent.saved (getCell row id_column)] }
      else
        { st1 with events := st1.events ++ [ProcEvent.failedPred (getCell row id_column)] }

/-- Observable result of one `process_data` run: the returned table, the
successive contents written to `output_path`, the predictor calls made,
and the log events. -/
structure RunResult where
  final : Table
  writes : List (List Row)
  calls : List (String × Val)
  events : List ProcEvent
deriving DecidableEq, Repr

/-- `process_data(df, sequence_column, id_column, output_path)`.
`ckpt` is the contents of the file at `output_path` (`none` when the file
does not exist).  If the file exists it is read back as the starting
accumulator; otherwise an empty accumulator with the input's columns plus
`{sequence_column}_structure` is created.  The input is deduplicated by
the sequence column and the loop body `stepRow` is folded over the rows. -/
def process_data (ckpt : Option Table) (df : Table)
    (sequence_column id_column : String)
    (predict : String → Val → Option String) : RunResult :=
  let processed_df : Table :=
    match ckpt with
    | some t => t
    | none => { cols := df.cols ++ [sequence_column ++ "_structure"], rows := [] }
  let dedup := drop_duplicates df sequence_column
  let st := dedup.rows.foldl (stepRow predict sequence_column id_column)
    { acc := processed_df, writes := [], calls := [], events := [] }
  { final := st.acc, writes := st.writes, calls := st.calls, events := st.events }

/-! ### Derived descriptions used by the theorems -/

/-- The augmented row a single loop iteration appends, `none` when the
row is skipped (null sequence or falsy prediction). -/
def rowOutcome (predict : String → Val → Option String)
    (sequence_column id_column : String) (r : Row) : Option Row :=
  match getCell r sequence_column with
  | none => none
  | some s =>
      if truthy (predict s (getCell r id_column)) then
        some (setCell r (sequence_column ++ "_structure")
          (predict s (getCell r id_column)))
      else none

/-- The rows successfully processed, in order, out of a row list. -/
def successRows (predict : String → Val → Option String)
    (sequence_column id_column : String) (rows : List Row) : List Row :=
  rows.filterMap (rowOutcome predict sequence_column id_column)

/-- The (sequence, id) predictor-call list generated by a row list: one
call per row whose sequence cell is present. -/
def callsOf (sequence_column id_column : String) (rows : List Row) :
    List (String × Val) :=
  rows.filterMap (fun r =>
    (getCell r sequence_column).map (fun s => (s, getCell r id_column)))

/-- The rows initially in the accumulator: the checkpoint's rows when the
output file exists, nothing otherwise. -/
def checkpointRows (ckpt : Option Table) : List Row :=
  match ckpt with
  | some t => t.rows
  | none => []

/-! ### Helper lemmas -/

lemma splitNlChars_ne_nil (cs : List Char) : splitNlChars cs ≠ [] := by
  cases cs with
  | nil => simp [splitNlChars]
  | cons c cs =>
      simp only [splitNlChars]
      split
      · simp
      · split <;> simp

lemma splitNlChars_length (cs : List Char) :
    (splitNlChars cs).length = cs.count '\n' + 1 := by
  induction cs with
  | nil => simp [splitNlChars]
  | cons c cs ih =>
      simp only [splitNlChars]
      cases h : splitNlChars cs with
      | nil => exact absurd h (splitNlChars_ne_nil cs)
      | cons l ls =>
          rw [h] at ih
          have hlen : ls.length + 1 = cs.count '\n' + 1 := by simpa using ih
          by_cases hc : c = '\n'
          · subst hc
            simp only [if_pos rfl, List.length_cons, List.count_cons, beq_iff_eq]
            simp
            omega
          · simp only [if_neg hc, List.length_cons, List.count_cons, beq_iff_eq,
              if_neg hc]
            omega

lemma pySplit_length (s : String) :
    (pySplit s).length = s.data.count '\n' + 1 := by
  unfold pySplit
  rw [List.length_map, splitNlChars_length]

lemma dropDupAux_sublist (c : String) (rows : List Row) :
    ∀ seen, List.Sublist (dropDupAux c seen rows) rows := by
  induction rows with
  | nil => intro seen; simp [dropDupAux]
  | cons r rs ih =>
      intro seen
      simp only [dropDupAux]
      by_cases h : getCell r c ∈ seen
      · rw [if_pos h]
        exact (ih seen).cons r
      · rw [if_neg h]
        exact (ih _).cons₂ r

lemma dropDupAux_filter (c : String) (k : Val) (rows : List Row) :
    ∀ seen,
      (dropDupAux c seen rows).filter (fun r => decide (getCell r c = k))
        = if k ∈ seen then []
          else (rows.find? (fun r => decide (getCell r c = k))).toList := by
  induction rows with
  | nil => intro seen; simp [dropDupAux]
  | cons r rs ih =>
      intro seen
      simp only [dropDupAux]
      by_cases h1 : getCell r c ∈ seen
      · rw [if_pos h1, ih seen]
        by_cases h2 : k ∈ seen
        · simp [h2]
        · have hne : ¬ getCell r c = k := fun he => h2 (he ▸ h1)
          rw [if_neg h2, if_neg h2,
            List.find?_cons_of_neg _ (by simpa using hne)]
      · rw [if_neg h1]
        by_cases h2 : getCell r c = k
        · rw [List.filter_cons_of_pos (by simpa using h2), ih]
          have hks : k ∈ getCell r c :: seen := by
            rw [h2]; exact List.mem_cons_self _ _
          rw [if_pos hks, if_neg (h2 ▸ h1),
            List.find?_cons_of_pos _ (by simpa using h2)]
          rfl
        · rw [List.filter_cons_of_neg (by simpa using h2), ih]
          by_cases h3 : k ∈ seen
          · rw [if_pos (List.mem_cons_of_mem _ h3), if_pos h3]
          · have : ¬ k ∈ getCell r c :: seen := by
              intro hk
              rcases List.mem_cons.mp hk with he | hs
              · exact h2 he.symm
              · exact h3 hs
            rw [if_neg this, if_neg h3,
              List.find?_cons_of_neg _ (by simpa using h2)]

lemma stepRow_of_null {predict : String → Val → Option String}
    {sequence_column : String} (id_column : String) (st : LoopState) (r : Row)
    (h : getCell r sequence_column = none) :
    stepRow predict sequence_column id_column st r
      = { st with events := st.events ++ [ProcEvent.skipNull (getCell r id_column)] } := by
  simp [stepRow, h]

lemma stepRow_of_falsy {predict : String → Val → Option String}
    {sequence_column : String} (id_column : String) (st : LoopState) (r : Row)
    {s : String} (h : getCell r sequence_column = some s)
    (ht : truthy (predict s (getCell r id_column)) = false) :
    stepRow predict sequence_column id_column st r
      = { st with
            calls := st.calls ++ [(s, getCell r id_column)]
            events := st.events ++ [ProcEvent.failedPred (getCell r id_column)] } := by
  simp [stepRow, h, ht]

lemma stepRow_of_truthy {predict : String → Val → Option String}
    {sequence_column : String} (id_column : String) (st : LoopState) (r : Row)
    {s : String} (h : getCell r sequence_column = some s)
    (ht : truthy (predict s (getCell r id_column)) = true) :
    stepRow predict sequence_column id_column st r
      = { acc := { st.acc with
            rows := st.acc.rows
              ++ [setCell r (sequence_column ++ "_structure")
                    (predict s (getCell r id_column))] }
          writes := st.writes
            ++ [st.acc.rows
              ++ [setCell r (sequence_column ++ "_structure")
                    (predict s (getCell r id_column))]]
          calls := st.calls ++ [(s, getCell r id_column)]
          events := st.events ++ [ProcEvent.saved (getCell r id_column)] } := by
  simp [stepRow, h, ht]

/-- Invariant of the processing loop: folding `stepRow` over a row list
appends exactly the successful rows to the accumulator, records one
full-accumulator write per success (each one a strictly longer prefix of
the successes), and records one predictor call per non-null row. -/
lemma stepRow_foldl_spec (predict : String → Val → Option String)
    (sequence_column id_column : String) (rows : List Row) :
    ∀ st : LoopState,
      (rows.foldl (stepRow predict sequence_column id_column) st).acc.cols
          = st.acc.cols
      ∧ (rows.foldl (stepRow predict sequence_column id_column) st).acc.rows
          = st.acc.rows ++ successRows predict sequence_column id_column rows
      ∧ (rows.foldl (stepRow predict sequence_column id_column) st).writes
          = st.writes
            ++ (List.range (successRows predict sequence_column id_column rows).length).map
              (fun j => st.acc.rows
                ++ (successRows predict sequence_column id_column rows).take (j + 1))
      ∧ (rows.foldl (stepRow predict sequence_column id_column) st).calls
          = st.calls ++ callsOf sequence_column id_column rows := by
  induction rows with
  | nil => intro st; simp [successRows, callsOf]
  | cons r rs ih =>
      intro st
      simp only [List.foldl_cons]
      cases hseq : getCell r sequence_column with
      | none =>
          have hout : rowOutcome predict sequence_column id_column r = none := by
            simp [rowOutcome, hseq]
          rw [stepRow_of_null id_column st r hseq]
          obtain ⟨h1, h2, h3, h4⟩ :=
            ih { st with events := st.events ++ [ProcEvent.skipNull (getCell r id_column)] }
          refine ⟨h1, ?_, ?_, ?_⟩
          · rw [h2]; simp [successRows, List.filterMap_cons, hout]
          · rw [h3]; simp [successRows, List.filterMap_cons, hout]
          · rw [h4]; simp [callsOf, List.filterMap_cons, hseq]
      | some s =>
          cases ht : truthy (predict s (getCell r id_column)) with
          | false =>
              have hout : rowOutcome predict sequence_column id_column r = none := by
                simp [rowOutcome, hseq, ht]
              rw [stepRow_of_falsy id_column st r hseq ht]
              obtain ⟨h1, h2, h3, h4⟩ :=
                ih { st with
                      calls := st.calls ++ [(s, getCell r id_column)],
                      events := st.events ++ [ProcEvent.failedPred (getCell r id_column)] }
              refine ⟨h1, ?_, ?_, ?_⟩
              · rw [h2]; simp [successRows, List.filterMap_cons, hout]
              · rw [h3]; simp [successRows, List.filterMap_cons, hout]
              · rw [h4]; simp [callsOf, List.filterMap_cons, hseq]
          | true =>
              have hout : rowOutcome predict sequence_column id_column r
                  = some (setCell r (sequence_column ++ "_structure")
                      (predict s (getCell r id_column))) := by
                simp [rowOutcome, hseq, ht]
              rw [stepRow_of_truthy id_column st r hseq ht]
              obtain ⟨h1, h2, h3, h4⟩ :=
                ih { acc := { st.acc with
                        rows := st.acc.rows
                          ++ [setCell r (sequence_column ++ "_structure")
                                (predict s (getCell r id_column))] },
                     writes := st.writes
                        ++ [st.acc.rows
                          ++ [setCell r (sequence_column ++ "_structure")
                                (predict s (getCell r id_column))]],
                     calls := st.calls ++ [(s, getCell r id_column)],
                     events := st.events ++ [ProcEvent.saved (getCell r id_column)] }
              refine ⟨h1, ?_, ?_, ?_⟩
              · rw [h2]
                simp [successRows, List.filterMap_cons, hout]
              · rw [h3]
                simp only [successRows, List.filterMap_cons, hout, List.length_cons,
                  List.range_succ_eq_map, List.map_cons, List.map_map, Function.comp,
                  List.take_succ_cons, List.take_zero]
                simp [List.append_assoc]
              · rw [h4]; simp [callsOf, List.filterMap_cons, hseq]

/-- Observable behaviour of one `process_data` run, for any checkpoint
state, input table and predictor. -/
lemma process_data_spec (ckpt : Option Table) (df : Table)
    (sequence_column id_column : String)
    (predict : String → Val → Option String) :
    (process_data ckpt df sequence_column id_column predict).final.cols
        = (match ckpt with
           | some t => t.cols
           | none => df.cols ++ [sequence_column ++ "_structure"])
    ∧ (process_data ckpt df sequence_column id_column predict).final.rows
        = checkpointRows ckpt
          ++ successRows predict sequence_column id_column
              (drop_duplicates df sequence_column).rows
    ∧ (process_data ckpt df sequence_column id_column predict).writes
        = (List.range (successRows predict sequence_column id_column
              (drop_duplicates df sequence_column).rows).length).map
            (fun j => checkpointRows ckpt
              ++ (successRows predict sequence_column id_column
                  (drop_duplicates df sequence_column).rows).take (j + 1))
    ∧ (process_data ckpt df sequence_column id_column predict).calls
        = callsOf sequence_column id_column (drop_duplicates df sequence_column).rows := by
  obtain ⟨h1, h2, h3, h4⟩ :=
    stepRow_foldl_spec predict sequence_column id_column
      (drop_duplicates df sequence_column).rows
      { acc := match ckpt with
               | some t => t
               | none => { cols := df.cols ++ [sequence_column ++ "_structure"],
                           rows := [] },
        writes := [], calls := [], events := [] }
  cases ckpt with
  | none =>
      refine ⟨?_, ?_, ?_, ?_⟩
      · simpa [process_data] using h1
      · simpa [process_data, checkpointRows] using h2
      · simpa [process_data, checkpointRows] using h3
      · simpa [process_data] using h4
  | some t =>
      refine ⟨?_, ?_, ?_, ?_⟩
      · simpa [process_data] using h1
      · simpa [process_data, checkpointRows] using h2
      · simpa [process_data, checkpointRows] using h3
      · simpa [process_data] using h4

/-- When the predictor always returns the absence-signal, no row is ever
appended. -/
lemma successRows_nil_of_predict_none {predict : String → Val → Option String}
    (hp : ∀ s v, predict s v = none) (sequence_column id_column : String)
    (rows : List Row) : successRows predict sequence_column id_column rows = [] := by
  induction rows with
  | nil => rfl
  | cons r rs ih =>
      have hout : rowOutcome predict sequence_column id_column r = none := by
        unfold rowOutcome
        cases getCell r sequence_column with
        | none => rfl
        | some s => simp [hp, truthy]
      simpa [successRows, List.filterMap_cons, hout] using ih

/-- When every row has a present sequence cell, every row generates
exactly one predictor call. -/
lemma callsOf_length_of_isSome (sequence_column id_column : String)
    (rows : List Row) (h : ∀ r ∈ rows, (getCell r sequence_column).isSome = true) :
    (callsOf sequence_column id_column rows).length = rows.length := by
  induction rows with
  | nil => simp [callsOf]
  | cons r rs ih =>
      have hr := h r (List.mem_cons_self r rs)
      obtain ⟨s, hs⟩ := Option.isSome_iff_exists.mp hr
      have htail := ih (fun x hx => h x (List.mem_cons_of_mem r hx))
      simp only [callsOf, List.filterMap_cons, hs, Option.map_some',
        List.length_cons] at htail ⊢
      omega

/-- Counting the rows a Bool predicate rejects equals the length lost by
filtering with it. -/
lemma countP_not_eq_sub (p : Row → Bool) (l : List Row) :
    l.countP (fun r => !p r) = l.length - (l.filter p).length := by
  induction l with
  | nil => simp
  | cons r rs ih =>
      have hle := List.length_filter_le p rs
      cases h : p r
      all_goals simp [List.countP_cons, List.filter_cons, h, ih]
      all_goals omega

/-! ### The claims -/

/-- Claim C1: in every run of the Batch Processor, each row whose
prediction returns a (truthy) structure is extended with the derived
`{sequence_column}_structure` cell, appended to the accumulator, and the
full accumulator is immediately written to the output path: the j-th
write is exactly the checkpoint rows followed by the first j+1
successfully processed (augmented) rows — no loss, no extra — and the
final accumulator is the checkpoint rows followed by all of them. -/
theorem C1_checkpoint_per_success (ckpt : Option Table) (df : Table)
    (sequence_column id_column : String)
    (predict : String → Val → Option String) :
    (process_data ckpt df sequence_column id_column predict).writes
        = (List.range (successRows predict sequence_column id_column
              (drop_duplicates df sequence_column).rows).length).map
            (fun j => checkpointRows ckpt
              ++ (successRows predict sequence_column id_column
                  (drop_duplicates df sequence_column).rows).take (j + 1))
    ∧ (process_data ckpt df sequence_column id_column predict).final.rows
        = checkpointRows ckpt
          ++ successRows predict sequence_column id_column
              (drop_duplicates df sequence_column).rows :=
  ⟨(process_data_spec ckpt df sequence_column id_column predict).2.2.1,
   (process_data_spec ckpt df sequence_column id_column predict).2.1⟩

/-- Claim C2: the Batch Processor initialises its accumulator from the
output file when one exists, and otherwise starts from an empty table
whose columns are the input's columns plus `{sequence_column}_structure`;
the returned table is that starting accumulator with the successful rows
appended. -/
theorem C2_accumulator_initialisation (ckpt : Option Table) (df : Table)
    (sequence_column id_column : String)
    (predict : String → Val → Option String) :
    (process_data ckpt df sequence_column id_column predict).final.cols
        = (match ckpt with
           | some t => t.cols
           | none => df.cols ++ [sequence_column ++ "_structure"])
    ∧ (process_data ckpt df sequence_column id_column predict).final.rows
        = (match ckpt with
           | some t => t.rows
           | none => [])
          ++ successRows predict sequence_column id_column
              (drop_duplicates df sequence_column).rows := by
  obtain ⟨h1, h2, _, _⟩ := process_data_spec ckpt df sequence_column id_column predict
  cases ckpt with
  | none => exact ⟨h1, h2⟩
  | some t => exact ⟨h1, h2⟩

/-- Claim C3: a restarted run does not cross-reference the loaded
checkpoint: the predictor-call list is identical whether or not a
checkpoint was loaded, it contains one call per deduplicated row whose
sequence cell is present (so with a fully non-null input, one call per
deduplicated row, ids in the checkpoint included), and the resulting
rows are appended after the checkpoint's rows rather than skipped. -/
theorem C3_no_checkpoint_cross_reference (t : Table) (df : Table)
    (sequence_column id_column : String)
    (predict : String → Val → Option String) :
    (process_data (some t) df sequence_column id_column predict).calls
        = (process_data none df sequence_column id_column predict).calls
    ∧ (process_data (some t) df sequence_column id_column predict).calls
        = callsOf sequence_column id_column (drop_duplicates df sequence_column).rows
    ∧ (process_data (some t) df sequence_column id_column predict).final.rows
        = t.rows
          ++ successRows predict sequence_column id_column
              (drop_duplicates df sequence_column).rows
    ∧ ((∀ r ∈ df.rows, (getCell r sequence_column).isSome = true) →
        (process_data (some t) df sequence_column id_column predict).calls.length
          = (drop_duplicates df sequence_column).rows.length) := by
  obtain ⟨_, h2, _, h4⟩ := process_data_spec (some t) df sequence_column id_column predict
  obtain ⟨_, _, _, h4'⟩ := process_data_spec none df sequence_column id_column predict
  refine ⟨h4.trans h4'.symm, h4, h2, fun hall => ?_⟩
  rw [h4]
  refine callsOf_length_of_isSome sequence_column id_column _ (fun r hr => ?_)
  exact hall r ((dropDupAux_sublist sequence_column df.rows []).subset hr)

/-- Claim C3, witnessed: with a checkpoint already holding the only
input row's processed copy, the restarted run still makes the predictor
call for it and appends a duplicate row after the checkpoint's. -/
theorem C3_no_checkpoint_cross_reference_witness :
    (process_data
        (some ⟨["id", "seq", "seq_structure"],
               [[("id", some "A"), ("seq", some "ACGU"), ("seq_structure", some "x")]]⟩)
        ⟨["id", "seq"], [[("id", some "A"), ("seq", some "ACGU")]]⟩
        "seq" "id" (fun _ _ => some "y")).calls
      = (process_data none
          ⟨["id", "seq"], [[("id", some "A"), ("seq", some "ACGU")]]⟩
          "seq" "id" (fun _ _ => some "y")).calls
    ∧ (process_data
        (some ⟨["id", "seq", "seq_structure"],
               [[("id", some "A"), ("seq", some "ACGU"), ("seq_structure", some "x")]]⟩)
        ⟨["id", "seq"], [[("id", some "A"), ("seq", some "ACGU")]]⟩
        "seq" "id" (fun _ _ => some "y")).calls.length
      = (drop_duplicates
          ⟨["id", "seq"], [[("id", some "A"), ("seq", some "ACGU")]]⟩ "seq").rows.length := by
  have h := C3_no_checkpoint_cross_reference
    ⟨["id", "seq", "seq_structure"],
     [[("id", some "A"), ("seq", some "ACGU"), ("seq_structure", some "x")]]⟩
    ⟨["id", "seq"], [[("id", some "A"), ("seq", some "ACGU")]]⟩
    "seq" "id" (fun _ _ => some "y")
  exact ⟨h.1, h.2.2.2 (by decide)⟩

/-- Claim C4: deduplication keeps, for each sequence-column value,
exactly the first row of the input carrying it (so rows with a unique
value are all kept), in the original order, and touches nothing else. -/
theorem C4_dedup_keeps_first_occurrence (df : Table) (c : String) :
    (drop_duplicates df c).cols = df.cols
    ∧ List.Sublist (drop_duplicates df c).rows df.rows
    ∧ ∀ k : Val,
        (drop_duplicates df c).rows.filter (fun r => decide (getCell r c = k))
          = (df.rows.find? (fun r => decide (getCell r c = k))).toList := by
  refine ⟨rfl, dropDupAux_sublist c df.rows [], fun k => ?_⟩
  have h := dropDupAux_filter c k df.rows []
  simpa [drop_duplicates] using h

/-- Claim C5: on a readable input table the Loader returns exactly the
rows whose required field is present (all other rows and cells
untouched), and the dropped-row count it logs equals both the number of
rows with a missing field and the original row count minus the returned
row count. -/
theorem C5_loader_drops_missing_rows (df : Table) (sequence_column : String) :
    load_data (some df) sequence_column
      = Except.ok
          ({ cols := df.cols,
             rows := df.rows.filter (fun r => (getCell r sequence_column).isSome) },
           df.rows.countP (fun r => !(getCell r sequence_column).isSome))
    ∧ df.rows.countP (fun r => !(getCell r sequence_column).isSome)
        = df.rows.length
          - (df.rows.filter (fun r => (getCell r sequence_column).isSome)).length := by
  have hc := countP_not_eq_sub (fun r => (getCell r sequence_column).isSome) df.rows
  refine ⟨?_, hc⟩
  simp only [load_data]
  rw [hc]

/-- Claim C6: a non-zero exit of the external tool is converted by the
Adapter into the absence-signal (`None`) instead of an exception, a
warning naming the record id is logged, and — since the loop appends a
row only on a truthy prediction — a predictor that only yields the
absence-signal leaves the accumulator at its checkpoint contents and
writes nothing. -/
theorem C6_nonzero_exit_maps_to_absence (tool : String → ToolOutput)
    (sequence sequence_id : String)
    (h : (tool (fastaText sequence_id sequence)).exitCode ≠ 0) :
    (predict_structure_with_ipknot tool sequence sequence_id).outcome
        = AdapterOutcome.ret none
    ∧ sequence_id ∈ (predict_structure_with_ipknot tool sequence sequence_id).warnedIds
    ∧ ∀ (ckpt : Option Table) (df : Table) (sc ic : String)
        (predict : String → Val → Option String),
        (∀ s v, predict s v = none) →
        (process_data ckpt df sc ic predict).final.rows = checkpointRows ckpt
        ∧ (process_data ckpt df sc ic predict).writes = [] := by
  refine ⟨by simp [predict_structure_with_ipknot, h],
    by simp [predict_structure_with_ipknot, h], ?_⟩
  intro ckpt df sc ic predict hp
  have hnil := successRows_nil_of_predict_none hp sc ic (drop_duplicates df sc).rows
  obtain ⟨_, h2, h3, _⟩ := process_data_spec ckpt df sc ic predict
  constructor
  · rw [h2, hnil, List.append_nil]
  · rw [h3, hnil]
    rfl

/-- Claim C6, witnessed at a concrete failing tool and a concrete
one-row table. -/
theorem C6_nonzero_exit_maps_to_absence_witness :
    (predict_structure_with_ipknot (fun _ => ⟨1, ""⟩) "ACGU" "X").outcome
        = AdapterOutcome.ret none
    ∧ "X" ∈ (predict_structure_with_ipknot (fun _ => ⟨1, ""⟩) "ACGU" "X").warnedIds
    ∧ (process_data none ⟨["id", "seq"], [[("id", some "A"), ("seq", some "ACGU")]]⟩
        "seq" "id" (fun _ _ => none)).final.rows = []
    ∧ (process_data none ⟨["id", "seq"], [[("id", some "A"), ("seq", some "ACGU")]]⟩
        "seq" "id" (fun _ _ => none)).writes = [] := by
  have h := C6_nonzero_exit_maps_to_absence (fun _ => ⟨1, ""⟩) "ACGU" "X" (by decide)
  refine ⟨h.1, h.2.1, ?_, ?_⟩
  · exact (h.2.2 none ⟨["id", "seq"], [[("id", some "A"), ("seq", some "ACGU")]]⟩
      "seq" "id" (fun _ _ => none) (fun _ _ => rfl)).1
  · exact (h.2.2 none ⟨["id", "seq"], [[("id", some "A"), ("seq", some "ACGU")]]⟩
      "seq" "id" (fun _ _ => none) (fun _ _ => rfl)).2

/-- Claim C7: when the external tool exits with status zero and its
stdout has a third newline-separated line, the Adapter returns exactly
that line (index 2, zero-based, splitting on the newline character). -/
theorem C7_returns_third_stdout_line (tool : String → ToolOutput)
    (sequence sequence_id line : String)
    (h0 : (tool (fastaText sequence_id sequence)).exitCode = 0)
    (h2 : (pySplit (tool (fastaText sequence_id sequence)).stdout).get? 2 = some line) :
    (predict_structure_with_ipknot tool sequence sequence_id).outcome
      = AdapterOutcome.ret (some line) := by
  have h2' : (pySplit (tool (fastaText sequence_id sequence)).stdout)[2]? = some line := by
    simpa using h2
  simp [predict_structure_with_ipknot, h0, h2']

/-- Claim C7, witnessed on the tool's documented three-line layout. -/
theorem C7_returns_third_stdout_line_witness :
    (pySplit "head\nACGU\n((..))\n").get? 2 = some "((..))"
    ∧ (predict_structure_with_ipknot (fun _ => ⟨0, "head\nACGU\n((..))\n"⟩)
        "ACGU" "X").outcome = AdapterOutcome.ret (some "((..))") :=
  ⟨rfl, C7_returns_third_stdout_line (fun _ => ⟨0, "head\nACGU\n((..))\n"⟩)
    "ACGU" "X" "((..))" rfl rfl⟩

/-- Claim C8: the temporary FASTA file, once created, no longer exists
after the Adapter returns, on every control path (tool success, tool
failure, and the uncaught IndexError path alike). -/
theorem C8_temp_file_always_unlinked (tool : String → ToolOutput)
    (sequence sequence_id : String) :
    FsEvent.createTemp ∈ (predict_structure_with_ipknot tool sequence sequence_id).events
    ∧ tempFileExists (predict_structure_with_ipknot tool sequence sequence_id).events
        = false := by
  simp only [predict_structure_with_ipknot]
  split
  · split <;> exact ⟨by simp, rfl⟩
  · exact ⟨by simp, rfl⟩

/-- Claim C9: an empty third line is returned by the Adapter as an empty
string, which the Batch Processor's truthiness test treats exactly like
the absence-signal: the loop step is literally the same as with a `None`
prediction — nothing is appended, nothing is written, and a
failed-prediction warning is logged for the row. -/
theorem C9_empty_structure_treated_as_absence (tool : String → ToolOutput)
    (sequence sequence_id : String)
    (h0 : (tool (fastaText sequence_id sequence)).exitCode = 0)
    (h2 : (pySplit (tool (fastaText sequence_id sequence)).stdout).get? 2 = some "") :
    (predict_structure_with_ipknot tool sequence sequence_id).outcome
        = AdapterOutcome.ret (some "")
    ∧ truthy (some "") = truthy none
    ∧ ∀ (predict : String → Val → Option String) (st : LoopState) (r : Row)
        (sc ic : String) (s : String),
        getCell r sc = some s →
        predict s (getCell r ic) = some "" →
        stepRow predict sc ic st r = stepRow (fun _ _ => none) sc ic st r
        ∧ (stepRow predict sc ic st r).acc = st.acc
        ∧ (stepRow predict sc ic st r).writes = st.writes
        ∧ (stepRow predict sc ic st r).events
            = st.events ++ [ProcEvent.failedPred (getCell r ic)] := by
  have h2' : (pySplit (tool (fastaText sequence_id sequence)).stdout)[2]? = some "" := by
    simpa using h2
  have he : ("" : String).isEmpty = true := by decide
  refine ⟨by simp [predict_structure_with_ipknot, h0, h2'], rfl, ?_⟩
  intro predict st r sc ic s hseq hpred
  refine ⟨?_, ?_, ?_, ?_⟩ <;> simp [stepRow, hseq, hpred, truthy, he]

/-- Claim C9, witnessed with a tool whose third stdout line is empty and
a concrete loop state. -/
theorem C9_empty_structure_treated_as_absence_witness :
    (predict_structure_with_ipknot (fun _ => ⟨0, "head\nACGU\n"⟩) "ACGU" "X").outcome
        = AdapterOutcome.ret (some "")
    ∧ stepRow (fun _ _ => some "") "seq" "id"
          ⟨⟨["id", "seq", "seq_structure"], []⟩, [], [], []⟩
          [("id", some "A"), ("seq", some "ACGU")]
        = stepRow (fun _ _ => none) "seq" "id"
          ⟨⟨["id", "seq", "seq_structure"], []⟩, [], [], []⟩
          [("id", some "A"), ("seq", some "ACGU")]
    ∧ (stepRow (fun _ _ => some "") "seq" "id"
          ⟨⟨["id", "seq", "seq_structure"], []⟩, [], [], []⟩
          [("id", some "A"), ("seq", some "ACGU")]).writes = [] := by
  have h := C9_empty_structure_treated_as_absence (fun _ => ⟨0, "head\nACGU\n"⟩)
    "ACGU" "X" rfl rfl
  have h3 := h.2.2 (fun _ _ => some "")
    ⟨⟨["id", "seq", "seq_structure"], []⟩, [], [], []⟩
    [("id", some "A"), ("seq", some "ACGU")] "seq" "id" "ACGU" rfl rfl
  exact ⟨h.1, h3.1, h3.2.2.1⟩

/-- Claim C10: with a zero exit status, the Adapter raises an uncaught
IndexError exactly when the tool's stdout splits into fewer than three
newline-separated fields, i.e. exactly when stdout contains fewer than
two newline characters; the index-2 access is safe precisely under the
three-line precondition. -/
theorem C10_short_output_raises (tool : String → ToolOutput)
    (sequence sequence_id : String)
    (h0 : (tool (fastaText sequence_id sequence)).exitCode = 0) :
    ((predict_structure_with_ipknot tool sequence sequence_id).outcome
        = AdapterOutcome.exn
      ↔ (pySplit (tool (fastaText sequence_id sequence)).stdout).length < 3)
    ∧ ((pySplit (tool (fastaText sequence_id sequence)).stdout).length < 3
      ↔ (tool (fastaText sequence_id sequence)).stdout.data.count '\n' < 2) := by
  have hl := pySplit_length (tool (fastaText sequence_id sequence)).stdout
  refine ⟨?_, by omega⟩
  cases hm : (pySplit (tool (fastaText sequence_id sequence)).stdout).get? 2 with
  | none =>
      have hle : (pySplit (tool (fastaText sequence_id sequence)).stdout).length ≤ 2 :=
        List.get?_eq_none.mp hm
      simp only [predict_structure_with_ipknot, h0, if_pos, hm]
      simp
      omega
  | some l =>
      have hlt : 2 < (pySplit (tool (fastaText sequence_id sequence)).stdout).length := by
        by_contra hc
        rw [List.get?_eq_none.mpr (by omega)] at hm
        cases hm
      simp only [predict_structure_with_ipknot, h0, if_pos, hm]
      simp
      omega

/-- Claim C10, witnessed at a tool emitting a single stdout line. -/
theorem C10_short_output_raises_witness :
    (pySplit "x").length < 3
    ∧ (predict_structure_with_ipknot (fun _ => ⟨0, "x"⟩) "ACGU" "X").outcome
        = AdapterOutcome.exn := by
  have h := C10_short_output_raises (fun _ => ⟨0, "x"⟩) "ACGU" "X" rfl
  exact ⟨by decide, h.1.mpr (by decide)⟩

end BioSaw
